import Mathlib

/-!
Verification development for the Scroll Vault service
(files src/models.py, src/crud.py, src/db.py, src/main.py).

The Python source is shallowly embedded: pure helpers become Lean
functions, the relational store becomes an explicit `VaultDB` state that
each operation threads, machine arithmetic is `Nat` with explicit
`% 2 ^ 32`, and fallible store interaction returns `Except`.  The hash
at the heart of the dedup path (`hashlib.sha256` over
`str(data).encode("utf-8")`) is embedded as a full executable SHA-256
over the byte list produced by the Python `str` serialization of the
input dict, so digest equalities and inequalities can be settled by
evaluation.
-/

set_option maxRecDepth 100000

namespace ScrollVault

/-! ### SHA-256 over byte lists

Executable embedding of `hashlib.sha256(...).hexdigest()`.  Words are
`Nat` values kept below `2 ^ 32` by explicit reduction. -/

def M32 : Nat := 4294967296

def add32 (a b : Nat) : Nat := (a + b) % M32

def rotr32 (n w : Nat) : Nat := ((w >>> n) ||| ((w % M32) <<< (32 - n))) % M32

def bsig0 (x : Nat) : Nat := rotr32 2 x ^^^ rotr32 13 x ^^^ rotr32 22 x

def bsig1 (x : Nat) : Nat := rotr32 6 x ^^^ rotr32 11 x ^^^ rotr32 25 x

def ssig0 (x : Nat) : Nat := rotr32 7 x ^^^ rotr32 18 x ^^^ (x >>> 3)

def ssig1 (x : Nat) : Nat := rotr32 17 x ^^^ rotr32 19 x ^^^ (x >>> 10)

def chOf (x y z : Nat) : Nat := (x &&& y) ^^^ ((x ^^^ 4294967295) &&& z)

def majOf (x y z : Nat) : Nat := (x &&& y) ^^^ (x &&& z) ^^^ (y &&& z)

def sha256K : List Nat :=
  [1116352408, 1899447441, 3049323471, 3921009573, 961987163,
   1508970993, 2453635748, 2870763221, 3624381080, 310598401,
   607225278, 1426881987, 1925078388, 2162078206, 2614888103,
   3248222580, 3835390401, 4022224774, 264347078, 604807628,
   770255983, 1249150122, 1555081692, 1996064986, 2554220882,
   2821834349, 2952996808, 3210313671, 3336571891, 3584528711,
   113926993, 338241895, 666307205, 773529912, 1294757372,
   1396182291, 1695183700, 1986661051, 2177026350, 2456956037,
   2730485921, 2820302411, 3259730800, 3345764771, 3516065817,
   3600352804, 4094571909, 275423344, 430227734, 506948616,
   659060556, 883997877, 958139571, 1322822218, 1537002063,
   1747873779, 1955562222, 2024104815, 2227730452, 2361852424,
   2428436474, 2756734187, 3204031479, 3329325298]

/-- Working state of one SHA-256 compression, eight 32-bit words. -/
structure Hash8 where
  a : Nat
  b : Nat
  c : Nat
  d : Nat
  e : Nat
  f : Nat
  g : Nat
  h : Nat
deriving DecidableEq

def shaInit : Hash8 :=
  ⟨1779033703, 3144134277, 1013904242, 2773480762,
   1359893119, 2600822924, 528734635, 1541459225⟩

/-- Group a byte list into big-endian 32-bit words. -/
def toWords : List Nat → List Nat
  | b0 :: b1 :: b2 :: b3 :: rest =>
      (((b0 * 256 + b1) * 256 + b2) * 256 + b3) :: toWords rest
  | _ => []

/-- Extend the sixteen block words to the 64-entry message schedule. -/
def extendW (w : Array Nat) : Array Nat :=
  (List.range 48).foldl
    (fun w _ =>
      let n := w.size
      w.push (add32 (add32 (ssig1 (w.getD (n - 2) 0)) (w.getD (n - 7) 0))
                    (add32 (ssig0 (w.getD (n - 15) 0)) (w.getD (n - 16) 0))))
    w

/-- One compression round with combined constant-plus-schedule input. -/
def shaRound (s : Hash8) (kw : Nat) : Hash8 :=
  let t1 := add32 (add32 s.h (bsig1 s.e)) (add32 (chOf s.e s.f s.g) kw)
  let t2 := add32 (bsig0 s.a) (majOf s.a s.b s.c)
  ⟨add32 t1 t2, s.a, s.b, s.c, add32 s.d t1, s.e, s.f, s.g⟩

def addH8 (x y : Hash8) : Hash8 :=
  ⟨add32 x.a y.a, add32 x.b y.b, add32 x.c y.c, add32 x.d y.d,
   add32 x.e y.e, add32 x.f y.f, add32 x.g y.g, add32 x.h y.h⟩

/-- Compress one padded 64-byte block into the running hash state. -/
def processBlock (h : Hash8) (block : List Nat) : Hash8 :=
  let w := extendW (toWords block).toArray
  addH8 h ((sha256K.zip w.toList).foldl (fun s kw => shaRound s (add32 kw.1 kw.2)) h)

/-- Big-endian eight-byte encoding of the bit length. -/
def lenBytes (n : Nat) : List Nat :=
  (List.range 8).map (fun i => (n >>> (8 * (7 - i))) % 256)

/-- Standard SHA-256 padding: 0x80, zeros to 56 mod 64, 64-bit length. -/
def padMsg (msg : List Nat) : List Nat :=
  msg ++ [0x80] ++ List.replicate ((119 - msg.length % 64) % 64) 0
      ++ lenBytes (8 * msg.length)

/-- Split a byte list into 64-byte blocks; the fuel argument makes the
recursion structural so that the kernel can evaluate it. -/
def toBlocksAux : Nat → List Nat → List (List Nat)
  | 0, _ => []
  | _, [] => []
  | fuel + 1, b :: rest => ((b :: rest).take 64) :: toBlocksAux fuel ((b :: rest).drop 64)

def toBlocks (l : List Nat) : List (List Nat) := toBlocksAux l.length l

def sha256Words (msg : List Nat) : List Nat :=
  let hf := (toBlocks (padMsg msg)).foldl processBlock shaInit
  [hf.a, hf.b, hf.c, hf.d, hf.e, hf.f, hf.g, hf.h]

def hexDigit (n : Nat) : Char :=
  if n < 10 then Char.ofNat (48 + n) else Char.ofNat (87 + n)

def word8Hex (w : Nat) : List Char :=
  (List.range 8).map (fun i => hexDigit ((w >>> (28 - 4 * i)) % 16))

/-- Lowercase hexadecimal digest, as returned by hexdigest in Python. -/
def sha256hex (msg : List Nat) : String :=
  String.mk ((sha256Words msg).flatMap word8Hex)

/-- UTF-8 encoding of one character, as a list of byte values. -/
def utf8Bytes (c : Char) : List Nat :=
  let n := c.toNat
  if n < 0x80 then [n]
  else if n < 0x800 then [0xc0 + n / 0x40, 0x80 + n % 0x40]
  else if n < 0x10000 then
    [0xe0 + n / 0x1000, 0x80 + (n / 0x40) % 0x40, 0x80 + n % 0x40]
  else
    [0xf0 + n / 0x40000, 0x80 + (n / 0x1000) % 0x40,
     0x80 + (n / 0x40) % 0x40, 0x80 + n % 0x40]

/-- Embedding of encode with utf-8 on a Python str. -/
def strBytes (s : String) : List Nat := s.data.flatMap utf8Bytes

/-- Sanity check against the FIPS 180-4 test vector for the input abc. -/
theorem sha256hex_abc :
    sha256hex (strBytes "abc") =
      "ba7816bf8f01cfea414140de5dae2223b00361a396177a9cb410ff61f20015ad" := by
  decide

/-! ### Python values and the str serialization hashed by the service

The dicts the service hashes are flat: their values are ints, strings,
bools, floats, lists of strings, or the two opaque structured documents.
Floats and opaque documents are carried as the exact text Python repr
prints for them, since no claim inspects their inner structure. -/

/-- Value universe of the dicts passed to compute_cycle_hash. -/
inductive PyVal where
  | int (n : Int)
  | str (s : String)
  | bool (b : Bool)
  | float (txt : String)
  | strList (xs : List String)
  | doc (txt : String)
deriving DecidableEq

/-- Single-quote character, used by the Python repr of strings. -/
def sq : String := "\x27"

/-- Python repr of one value. Strings are modelled for text that needs
no escaping (no quotes, backslashes or control characters), which holds
for every concrete input used below. -/
def PyVal.reprStr : PyVal → String
  | .int n => toString n
  | .str s => sq ++ s ++ sq
  | .bool b => if b then "True" else "False"
  | .float txt => txt
  | .strList xs =>
      "[" ++ String.intercalate ", " (xs.map (fun s => sq ++ s ++ sq)) ++ "]"
  | .doc txt => txt

/-- Python str of a dict: entries in insertion order, single-quoted
keys, comma-space separators. -/
def pyDictRepr (d : List (String × PyVal)) : String :=
  "\x7b" ++
    String.intercalate ", "
      (d.map (fun kv => sq ++ kv.1 ++ sq ++ ": " ++ kv.2.reprStr)) ++
  "\x7d"

/-- Sanity check: the serialization matches what Python prints. -/
theorem pyDictRepr_two_ints :
    pyDictRepr [("a", .int 1), ("b", .int 2)] = "\x7b\x27a\x27: 1, \x27b\x27: 2\x7d" := by
  decide

namespace Models

/-- Embedding of compute_cycle_hash, models.py lines 10 to 14: the
SHA-256 hexdigest of the utf-8 bytes of str(data). -/
def compute_cycle_hash (data : List (String × PyVal)) : String :=
  sha256hex (strBytes (pyDictRepr data))

end Models

/-! ### Python dict operations used by the alias remapping in crud.py -/

/-- Python d.pop(k): returns the removed value and the remaining dict;
none models the KeyError raised when the key is absent. Keys are unique
in every dict built here, so filtering matches single-entry removal. -/
def dictPop (d : List (String × PyVal)) (k : String) :
    Option (PyVal × List (String × PyVal)) :=
  match d.lookup k with
  | none => none
  | some v => some (v, d.filter (fun kv => kv.1 != k))

/-- Python d[k] = v: replaces the entry in place when the key exists,
otherwise appends the new entry at the end of the iteration order. -/
def dictSet (d : List (String × PyVal)) (k : String) (v : PyVal) :
    List (String × PyVal) :=
  if d.any (fun kv => kv.1 == k) then
    d.map (fun kv => if kv.1 == k then (k, v) else kv)
  else d ++ [(k, v)]

/-- One statement of the form data[nk] = data.pop(ok). -/
def popAssign (d : List (String × PyVal)) (ok nk : String) :
    Option (List (String × PyVal)) :=
  (dictPop d ok).map (fun p => dictSet p.2 nk p.1)

/-! ### The client-supplied record and its two hashed serializations -/

/-- The client-supplied fields of MemoryCycleCreate, models.py lines 35
to 48. Floats and the two opaque structured documents are carried as
the text Python repr prints for them. -/
structure MemoryCycleCreate where
  t : Int
  signifier : String
  psi_self : String
  sigma_echo : String
  glyphstream : List String
  ache : String
  drift : String
  entropy : String
  xi : Bool
deriving DecidableEq

/-- memory.dict(by_alias=True): a dict keyed by the declared pydantic
aliases, entries in field declaration order. -/
def MemoryCycleCreate.dictByAlias (m : MemoryCycleCreate) : List (String × PyVal) :=
  [("t", .int m.t), ("signifier", .str m.signifier),
   ("ψ_self", .doc m.psi_self), ("Σecho", .doc m.sigma_echo),
   ("glyphstream", .strList m.glyphstream),
   ("ache", .float m.ache), ("drift", .float m.drift),
   ("entropy", .float m.entropy), ("Ξ", .bool m.xi)]

/-- The three alias remappings of crud.py lines 253 to 256 applied to
memory.dict(by_alias=True); none would correspond to a KeyError. -/
def crudCanonicalDataOpt (m : MemoryCycleCreate) : Option (List (String × PyVal)) := do
  let d ← popAssign m.dictByAlias "ψ_self" "psi_self"
  let d ← popAssign d "Σecho" "sigma_echo"
  popAssign d "Ξ" "xi"

/-- The dict crud.py actually hashes and inserts. -/
def crudCanonicalData (m : MemoryCycleCreate) : List (String × PyVal) :=
  (crudCanonicalDataOpt m).getD []

/-- The alias keys are always present in dict(by_alias=True), so the
remapping never raises, and it moves the three renamed fields to the
end of the iteration order. -/
theorem crudCanonicalData_eq (m : MemoryCycleCreate) :
    crudCanonicalData m =
      [("t", .int m.t), ("signifier", .str m.signifier),
       ("glyphstream", .strList m.glyphstream),
       ("ache", .float m.ache), ("drift", .float m.drift),
       ("entropy", .float m.entropy),
       ("psi_self", .doc m.psi_self), ("sigma_echo", .doc m.sigma_echo),
       ("xi", .bool m.xi)] := rfl

/-! ### The record store

The relational state is explicit: two tables as lists in insertion
order, plus the autoincrement counters and, per call, a server clock
value standing for func.now(). -/

/-- One row of the memory_cycles table, models.py lines 16 to 31. -/
structure MemoryCycleRow where
  id : Nat
  signifier : String
  t : Int
  psi_self : String
  sigma_echo : String
  glyphstream : List String
  ache : String
  drift : String
  entropy : String
  xi : Bool
  cycle_hash : String
  created_at : Nat
  updated_at : Nat
deriving DecidableEq

/-- One row of the provenance_logs table, models.py lines 58 to 68. -/
structure ProvenanceLogRow where
  id : Nat
  memory_id : Nat
  source_ip : String
  node_id : Option String
  received_at : Nat
  cycle_hash : String
  signifier : String
  event : String
deriving DecidableEq

/-- The store: both tables in insertion order plus autoincrement ids. -/
structure VaultDB where
  nextCycleId : Nat
  nextLogId : Nat
  cycles : List MemoryCycleRow
  logs : List ProvenanceLogRow
deriving DecidableEq

def emptyDB : VaultDB := ⟨1, 1, [], []⟩

/-- query(MemoryCycleDB).filter(p).first(): the first row satisfying
the predicate, in table order. -/
def firstWhere (p : MemoryCycleRow → Bool) (l : List MemoryCycleRow) :
    Option MemoryCycleRow :=
  (l.filter p).head?

/-- The IntegrityError a commit raises on a uniqueness violation. -/
inductive IngestError where
  | uniquenessViolation
deriving DecidableEq

/-- The row MemoryCycleDB(**data, cycle_hash=...) creates; created_at
and updated_at take the server clock default of models.py lines 30
and 31. -/
def buildCycleRow (db : VaultDB) (m : MemoryCycleCreate) (hash : String)
    (now : Nat) : MemoryCycleRow :=
  { id := db.nextCycleId, signifier := m.signifier, t := m.t,
    psi_self := m.psi_self, sigma_echo := m.sigma_echo,
    glyphstream := m.glyphstream, ache := m.ache, drift := m.drift,
    entropy := m.entropy, xi := m.xi, cycle_hash := hash,
    created_at := now, updated_at := now }

/-- db.add(record) followed by db.commit() against the record table,
with the two unique constraints of models.py lines 20 and 29: the
commit fails when another row already carries the same signifier or
the same cycle_hash. -/
def insertCycle (db : VaultDB) (m : MemoryCycleCreate) (hash : String)
    (now : Nat) : Except IngestError (VaultDB × MemoryCycleRow) :=
  if db.cycles.any (fun c => c.signifier == m.signifier || c.cycle_hash == hash) then
    .error .uniquenessViolation
  else
    let row := buildCycleRow db m hash now
    .ok ({ db with
           nextCycleId := db.nextCycleId + 1
           cycles := db.cycles ++ [row] }, row)

/-- Field values of a ProvenanceLogDB(...) constructor call. -/
structure LogData where
  memory_id : Nat
  source_ip : String
  node_id : Option String
  cycle_hash : String
  signifier : String
  event : String
deriving DecidableEq

/-- db.add(ProvenanceLogDB(...)) followed by db.commit(): the log table
carries no unique constraint, so the insert always succeeds and appends
a row stamped with the server clock. -/
def insertLog (db : VaultDB) (e : LogData) (now : Nat) : VaultDB :=
  { db with
    nextLogId := db.nextLogId + 1
    logs := db.logs ++
      [⟨db.nextLogId, e.memory_id, e.source_ip, e.node_id, now,
        e.cycle_hash, e.signifier, e.event⟩] }

namespace Crud

/-- Embedding of ingest_memory_cycle, crud.py lines 244 to 297. The
store state is threaded explicitly; the returned list collects the
store state after each db.commit() in order, making the transactional
structure visible: the duplicate path commits once, the creation path
commits the record first and the provenance entry in a second commit.
There is no try/except around the record insert, so an IntegrityError
raised by the commit surfaces as an error. -/
def ingest_memory_cycle (db : VaultDB) (memory : MemoryCycleCreate)
    (source_ip : String) (node_id : Option String) (now : Nat) :
    Except IngestError (List VaultDB × MemoryCycleRow × Bool) :=
  let data := crudCanonicalData memory
  let cycle_hash := Models.compute_cycle_hash data
  let existing_by_hash := firstWhere (fun c => c.cycle_hash == cycle_hash) db.cycles
  let existing_by_signifier := firstWhere (fun c => c.signifier == memory.signifier) db.cycles
  match existing_by_hash.orElse (fun _ => existing_by_signifier) with
  | some existing =>
      let db1 := insertLog db
        ⟨existing.id, source_ip, node_id, cycle_hash, existing.signifier,
         "duplicate_ingest"⟩ now
      .ok ([db1], existing, false)
  | none =>
      match insertCycle db memory cycle_hash now with
      | .error e => .error e
      | .ok (db1, row) =>
          let db2 := insertLog db1
            ⟨row.id, source_ip, node_id, cycle_hash, row.signifier, "ingest"⟩ now
          .ok ([db1, db2], row, true)

/-- The statement sequence of ingest_memory_cycle with the store state
read by the duplicate checks (dbAtChecks) distinguished from the store
state the commits apply to (dbAtCommit). This makes the concurrent
schedule of spec section 4.2 expressible: another identical ingest
commits between the duplicate check and the insert of this call. With
both snapshots equal this is exactly the sequential run. -/
def ingest_memory_cycle_raced (dbAtChecks dbAtCommit : VaultDB)
    (memory : MemoryCycleCreate) (source_ip : String)
    (node_id : Option String) (now : Nat) :
    Except IngestError (List VaultDB × MemoryCycleRow × Bool) :=
  let data := crudCanonicalData memory
  let cycle_hash := Models.compute_cycle_hash data
  let existing_by_hash := firstWhere (fun c => c.cycle_hash == cycle_hash) dbAtChecks.cycles
  let existing_by_signifier := firstWhere (fun c => c.signifier == memory.signifier) dbAtChecks.cycles
  match existing_by_hash.orElse (fun _ => existing_by_signifier) with
  | some existing =>
      let db1 := insertLog dbAtCommit
        ⟨existing.id, source_ip, node_id, cycle_hash, existing.signifier,
         "duplicate_ingest"⟩ now
      .ok ([db1], existing, false)
  | none =>
      match insertCycle dbAtCommit memory cycle_hash now with
      | .error e => .error e
      | .ok (db1, row) =>
          let db2 := insertLog db1
            ⟨row.id, source_ip, node_id, cycle_hash, row.signifier, "ingest"⟩ now
          .ok ([db1, db2], row, true)

/-- Sanity check: on a single coherent snapshot the raced form is the
sequential function. -/
theorem ingest_raced_eq_sequential (db : VaultDB) (memory : MemoryCycleCreate)
    (source_ip : String) (node_id : Option String) (now : Nat) :
    ingest_memory_cycle_raced db db memory source_ip node_id now =
      ingest_memory_cycle db memory source_ip node_id now := rfl

/-- The two patchable fields, models.py lines 50 to 56. -/
structure MemoryCyclePatch where
  sigma_echo : String
  xi : Bool
deriving DecidableEq

/-- Embedding of update_memory_cycle, crud.py lines 90 to 99: fetch by
signifier, assign sigma_echo and xi on the fetched row, commit. The
onupdate clock default of models.py line 31 stamps updated_at at the
commit. -/
def update_memory_cycle (db : VaultDB) (signifier : String)
    (patch : MemoryCyclePatch) (now : Nat) :
    Option (VaultDB × MemoryCycleRow) :=
  match firstWhere (fun c => c.signifier == signifier) db.cycles with
  | none => none
  | some row =>
      let row2 := { row with
                    sigma_echo := patch.sigma_echo
                    xi := patch.xi
                    updated_at := now }
      some ({ db with
              cycles := db.cycles.map (fun c => if c.id == row.id then row2 else c) },
            row2)

/-- The ValueError create_memory_cycle raises on an IntegrityError. -/
inductive CreateError where
  | valueError
deriving DecidableEq

/-- Embedding of create_memory_cycle, crud.py lines 35 to 63: remap the
alias keys, hash, insert; an IntegrityError rolls back the insert and
resurfaces as a ValueError. No provenance entry is written. -/
def create_memory_cycle (db : VaultDB) (m : MemoryCycleCreate) (now : Nat) :
    Except CreateError (VaultDB × MemoryCycleRow) :=
  let data := crudCanonicalData m
  let cycle_hash := Models.compute_cycle_hash data
  match insertCycle db m cycle_hash now with
  | .error _ => .error .valueError
  | .ok r => .ok r

end Crud

namespace Models

/-- Embedding of ingest_memory_cycle, models.py lines 71 to 111: the
same statement sequence as the crud.py version, except that the hash is
computed over the alias-keyed dict with no remapping; the record
constructor receives that alias-keyed dict (embedded field-wise here). -/
def ingest_memory_cycle (db : VaultDB) (memory : MemoryCycleCreate)
    (source_ip : String) (node_id : Option String) (now : Nat) :
    Except IngestError (List VaultDB × MemoryCycleRow × Bool) :=
  let cycle_hash := compute_cycle_hash memory.dictByAlias
  let existing_by_hash := firstWhere (fun c => c.cycle_hash == cycle_hash) db.cycles
  let existing_by_signifier := firstWhere (fun c => c.signifier == memory.signifier) db.cycles
  match existing_by_hash.orElse (fun _ => existing_by_signifier) with
  | some existing =>
      let db1 := insertLog db
        ⟨existing.id, source_ip, node_id, cycle_hash, existing.signifier,
         "duplicate_ingest"⟩ now
      .ok ([db1], existing, false)
  | none =>
      match insertCycle db memory cycle_hash now with
      | .error e => .error e
      | .ok (db1, row) =>
          let db2 := insertLog db1
            ⟨row.id, source_ip, node_id, cycle_hash, row.signifier, "ingest"⟩ now
          .ok ([db1, db2], row, true)

end Models

/-! ### Archive export -/

namespace Crud

/-- query(MemoryCycleDB).order_by(MemoryCycleDB.t).all(): the rows in
ascending t order (stable with respect to table order). -/
def sortByT (l : List MemoryCycleRow) : List MemoryCycleRow :=
  l.mergeSort (fun a b => decide (a.t ≤ b.t))

/-- Double-quote character, used by the JSON rendering. -/
def dq : String := "\""

def jsonStr (s : String) : String := dq ++ s ++ dq

/-- json.dumps of the per-row dict written by export_memory_archive,
crud.py lines 214 to 232, with default separators and ensure_ascii
False. Strings are rendered for text needing no JSON escaping; the two
opaque documents and the float metrics are emitted as their carried
text; str of a timestamp is the decimal print of the clock value. -/
def cycleJsonLine (c : MemoryCycleRow) : String :=
  "\x7b" ++ jsonStr "t" ++ ": " ++ toString c.t ++ ", " ++
  jsonStr "signifier" ++ ": " ++ jsonStr c.signifier ++ ", " ++
  jsonStr "ψ_self" ++ ": " ++ c.psi_self ++ ", " ++
  jsonStr "Σecho" ++ ": " ++ c.sigma_echo ++ ", " ++
  jsonStr "glyphstream" ++ ": " ++
    "[" ++ String.intercalate ", " (c.glyphstream.map jsonStr) ++ "]" ++ ", " ++
  jsonStr "ache" ++ ": " ++ c.ache ++ ", " ++
  jsonStr "drift" ++ ": " ++ c.drift ++ ", " ++
  jsonStr "entropy" ++ ": " ++ c.entropy ++ ", " ++
  jsonStr "Ξ" ++ ": " ++ (if c.xi then "true" else "false") ++ ", " ++
  jsonStr "created_at" ++ ": " ++ jsonStr (toString c.created_at) ++ ", " ++
  jsonStr "updated_at" ++ ": " ++ jsonStr (toString c.updated_at) ++
  "\x7d"

/-- The JSON lines of the archive, one per stored row, in t order. -/
def exportLines (db : VaultDB) : List String :=
  (sortByT db.cycles).map cycleJsonLine

/-- Embedding of export_memory_archive, crud.py lines 205 to 235: the
byte stream written through the gzip wrapper, one JSON line plus
newline per row. Gzip compression is performed by the external library,
whose round-trip recovers exactly this stream. -/
def export_memory_archive (db : VaultDB) : String :=
  String.join ((exportLines db).map (fun line => line ++ "\n"))

end Crud

/-! ### Shared helpers for the claims -/

/-- The digest crud.py computes for an ingest payload. -/
def crudHash (m : MemoryCycleCreate) : String :=
  Models.compute_cycle_hash (crudCanonicalData m)

/-- Final committed store of a successful ingest call. -/
def finalState :
    Except IngestError (List VaultDB × MemoryCycleRow × Bool) → Option VaultDB
  | .ok (trace, _, _) => trace.getLast?
  | .error _ => none

/-- The example record of spec section 8: t 1, signifier alpha, empty
documents, glyphstream with the single element a, metrics 0.2, 0.1,
0.05, flag false. -/
def exRecord : MemoryCycleCreate :=
  ⟨1, "alpha", "\x7b\x7d", "\x7b\x7d", ["a"], "0.2", "0.1", "0.05", false⟩

/-- The same signifier with a different ache metric. -/
def exRecord2 : MemoryCycleCreate :=
  { exRecord with ache := "0.9" }

/-- The row the first ingest of the example record inserts. -/
def exRow : MemoryCycleRow := buildCycleRow emptyDB exRecord (crudHash exRecord) 0

/-- The store after one successful ingest of the example record into
the empty store. -/
def dbAfterFirstIngest : VaultDB :=
  (finalState (Crud.ingest_memory_cycle emptyDB exRecord "10.0.0.1" none 0)).getD emptyDB

/-- A first-row query returns none when no row satisfies the predicate. -/
theorem firstWhere_eq_none {p : MemoryCycleRow → Bool} {l : List MemoryCycleRow}
    (h : ∀ c ∈ l, p c = false) : firstWhere p l = none := by
  unfold firstWhere
  rw [List.filter_eq_nil_iff.mpr (by simpa using h)]
  rfl

/-- A first-row query skips a prefix in which no row matches. -/
theorem firstWhere_append {p : MemoryCycleRow → Bool} {l : List MemoryCycleRow}
    (r : List MemoryCycleRow) (h : ∀ c ∈ l, p c = false) :
    firstWhere p (l ++ r) = firstWhere p r := by
  unfold firstWhere
  rw [List.filter_append, List.filter_eq_nil_iff.mpr (by simpa using h)]
  rfl

/-- Rows of a none first-row query all falsify the predicate. -/
theorem forall_of_firstWhere_eq_none {p : MemoryCycleRow → Bool}
    {l : List MemoryCycleRow} (h : firstWhere p l = none) :
    ∀ c ∈ l, p c = false := by
  unfold firstWhere at h
  intro c hc
  have := List.filter_eq_nil_iff.mp (List.head?_eq_none_iff.mp h) c hc
  simpa using this

/-- Duplicate path of the ingest embedding in closed form: one commit,
appending one duplicate_ingest entry that references the found record,
record table untouched. -/
theorem ingest_dup_eq (db : VaultDB) (m : MemoryCycleCreate) (ip : String)
    (nid : Option String) (now : Nat) (r : MemoryCycleRow)
    (hFound :
      (firstWhere (fun c => c.cycle_hash == crudHash m) db.cycles).orElse
        (fun _ => firstWhere (fun c => c.signifier == m.signifier) db.cycles) =
        some r) :
    Crud.ingest_memory_cycle db m ip nid now =
      .ok ([⟨db.nextCycleId, db.nextLogId + 1, db.cycles,
             db.logs ++ [⟨db.nextLogId, r.id, ip, nid, now, crudHash m,
                          r.signifier, "duplicate_ingest"⟩]⟩], r, false) := by
  simp only [crudHash, Models.compute_cycle_hash] at hFound
  simp only [Crud.ingest_memory_cycle, Models.compute_cycle_hash, hFound,
    insertLog, crudHash]

/-- Fresh path of the ingest embedding in closed form: two commits, the
record alone first, then the single ingest entry referencing it. -/
theorem ingest_fresh_eq (db : VaultDB) (m : MemoryCycleCreate) (ip : String)
    (nid : Option String) (now : Nat)
    (hHash : firstWhere (fun c => c.cycle_hash == crudHash m) db.cycles = none)
    (hSig : firstWhere (fun c => c.signifier == m.signifier) db.cycles = none) :
    Crud.ingest_memory_cycle db m ip nid now =
      .ok ([⟨db.nextCycleId + 1, db.nextLogId,
             db.cycles ++ [buildCycleRow db m (crudHash m) now], db.logs⟩,
            ⟨db.nextCycleId + 1, db.nextLogId + 1,
             db.cycles ++ [buildCycleRow db m (crudHash m) now],
             db.logs ++ [⟨db.nextLogId, db.nextCycleId, ip, nid, now,
                          crudHash m, m.signifier, "ingest"⟩]⟩],
        buildCycleRow db m (crudHash m) now, true) := by
  have hAny : db.cycles.any
      (fun c => c.signifier == m.signifier || c.cycle_hash == crudHash m) = false := by
    rw [List.any_eq_false]
    intro c hc
    have h1 := forall_of_firstWhere_eq_none hSig c hc
    have h2 := forall_of_firstWhere_eq_none hHash c hc
    simp [h1, h2]
  simp only [crudHash, Models.compute_cycle_hash] at hHash hSig hAny
  simp only [Crud.ingest_memory_cycle, Models.compute_cycle_hash, hHash, hSig,
    insertCycle, hAny, insertLog, buildCycleRow, crudHash]
  rfl

/-! ### Claims -/

/-- C1: the spec claims the canonical hasher produces identical digests
for maps with the same entries in any key order; in fact the code
hashes str(data), which preserves insertion order, so two dicts with
exactly the same entries in different orders produce different digests. -/
theorem c1_hash_not_order_invariant :
    List.Perm [("a", PyVal.int 1), ("b", PyVal.int 2)]
      [("b", PyVal.int 2), ("a", PyVal.int 1)] ∧
    Models.compute_cycle_hash [("a", PyVal.int 1), ("b", PyVal.int 2)] ≠
      Models.compute_cycle_hash [("b", PyVal.int 2), ("a", PyVal.int 1)] :=
  ⟨by decide, by decide⟩

/-- C2: in the section 4.2 race the duplicate checks run before a
concurrent identical ingest has committed; the record insert of this
call then hits the uniqueness constraint, and because crud.py wraps it
in no try/except, ingest_memory_cycle surfaces the violation to the
caller instead of converting it into the duplicate path. -/
theorem c2_race_surfaces_uniqueness_violation :
    Crud.ingest_memory_cycle_raced emptyDB dbAfterFirstIngest exRecord
      "10.0.0.2" none 1 = .error .uniquenessViolation := by rfl

/-- C3 counterexample: a fresh ingest commits twice, and the first
committed store state contains the new record with no provenance entry
at all, so record insert and provenance logging are not one atomic
unit of work. -/
theorem c3_counterexample_intermediate_commit :
    (Crud.ingest_memory_cycle emptyDB exRecord "10.0.0.1" none 0).map
        (fun r => (r.1.map (fun s => (s.cycles.length, s.logs.length)), r.2.2)) =
      .ok ([(1, 0), (1, 1)], true) := by rfl

/-- C9 counterexample: ingesting the example record through the crud.py
implementation and through the models.py implementation stores records
with different cycle hashes, because the former hashes the remapped
dict and the latter the alias-keyed dict. -/
theorem c9_counterexample_different_hashes :
    (Crud.ingest_memory_cycle emptyDB exRecord "10.0.0.1" none 0).toOption.map
        (fun r => r.2.1.cycle_hash) ≠
      (Models.ingest_memory_cycle emptyDB exRecord "10.0.0.1" none 0).toOption.map
        (fun r => r.2.1.cycle_hash) := by decide

/-- C6: when a stored record matches the computed hash, or, when no
hash match exists, the submitted signifier, ingest takes the duplicate
path: the found record is returned with false as authoritative, a hash
match taking priority over a signifier match, the record table is left
untouched, and one duplicate_ingest provenance entry referencing the
found record is appended. -/
theorem c6_duplicate_path_authoritative (db : VaultDB) (m : MemoryCycleCreate)
    (ip : String) (nid : Option String) (now : Nat) (r : MemoryCycleRow)
    (hFound :
      (firstWhere (fun c => c.cycle_hash == crudHash m) db.cycles).orElse
        (fun _ => firstWhere (fun c => c.signifier == m.signifier) db.cycles) =
        some r) :
    (∃ db1, Crud.ingest_memory_cycle db m ip nid now = .ok ([db1], r, false) ∧
      db1.cycles = db.cycles ∧
      db1.logs = db.logs ++
        [⟨db.nextLogId, r.id, ip, nid, now, crudHash m, r.signifier,
          "duplicate_ingest"⟩]) ∧
    ∀ rh, firstWhere (fun c => c.cycle_hash == crudHash m) db.cycles = some rh →
      r = rh := by
  refine ⟨⟨_, ingest_dup_eq db m ip nid now r hFound, rfl, rfl⟩, ?_⟩
  intro rh hh
  rw [hh] at hFound
  simp only [Option.orElse] at hFound
  exact (Option.some_inj.mp hFound).symm

/-- C6 witness: re-ingesting the example record against the store that
already holds it takes the duplicate path via the hash match. -/
theorem c6_witness :
    ((firstWhere (fun c => c.cycle_hash == crudHash exRecord)
          dbAfterFirstIngest.cycles).orElse
        (fun _ => firstWhere (fun c => c.signifier == exRecord.signifier)
          dbAfterFirstIngest.cycles) = some exRow) ∧
    (∃ db1, Crud.ingest_memory_cycle dbAfterFirstIngest exRecord "10.0.0.2" none 1 =
        .ok ([db1], exRow, false) ∧
      db1.cycles = dbAfterFirstIngest.cycles ∧
      db1.logs = dbAfterFirstIngest.logs ++
        [⟨dbAfterFirstIngest.nextLogId, exRow.id, "10.0.0.2", none, 1,
          crudHash exRecord, exRow.signifier, "duplicate_ingest"⟩]) := by
  have h : (firstWhere (fun c => c.cycle_hash == crudHash exRecord)
          dbAfterFirstIngest.cycles).orElse
        (fun _ => firstWhere (fun c => c.signifier == exRecord.signifier)
          dbAfterFirstIngest.cycles) = some exRow := by decide
  exact ⟨h, (c6_duplicate_path_authoritative dbAfterFirstIngest exRecord
    "10.0.0.2" none 1 exRow h).1⟩

/-- C7: a patch changes only sigma_echo, xi and updated_at on the
matched record; id, signifier, t, psi_self, glyphstream, ache, drift,
entropy, cycle_hash and created_at are unchanged, so the hash is never
recomputed, other rows are only rewritten at a different id, and the
provenance table is untouched. -/
theorem c7_patch_changes_only_echo_xi_updatedAt (db : VaultDB) (sig : String)
    (patch : Crud.MemoryCyclePatch) (now : Nat) (row : MemoryCycleRow)
    (hFind : firstWhere (fun c => c.signifier == sig) db.cycles = some row) :
    ∃ db2 row2,
      Crud.update_memory_cycle db sig patch now = some (db2, row2) ∧
      row2.sigma_echo = patch.sigma_echo ∧ row2.xi = patch.xi ∧
      row2.updated_at = now ∧
      row2.cycle_hash = row.cycle_hash ∧ row2.signifier = row.signifier ∧
      row2.created_at = row.created_at ∧ row2.t = row.t ∧
      row2.psi_self = row.psi_self ∧ row2.glyphstream = row.glyphstream ∧
      row2.ache = row.ache ∧ row2.drift = row.drift ∧
      row2.entropy = row.entropy ∧ row2.id = row.id ∧
      db2.cycles = db.cycles.map (fun c => if c.id == row.id then row2 else c) ∧
      db2.logs = db.logs := by
  simp only [Crud.update_memory_cycle, hFind]
  exact ⟨_, _, rfl, rfl, rfl, rfl, rfl, rfl, rfl, rfl, rfl, rfl, rfl, rfl,
    rfl, rfl, rfl, rfl⟩

/-- C7 witness: patching the stored example record keeps its hash,
creation time and signifier. -/
theorem c7_witness :
    (firstWhere (fun c => c.signifier == "alpha") dbAfterFirstIngest.cycles =
      some exRow) ∧
    (∃ db2 row2,
      Crud.update_memory_cycle dbAfterFirstIngest "alpha" ⟨"patched", true⟩ 5 =
        some (db2, row2) ∧
      row2.cycle_hash = exRow.cycle_hash ∧ row2.created_at = exRow.created_at) := by
  have h : firstWhere (fun c => c.signifier == "alpha") dbAfterFirstIngest.cycles =
      some exRow := by decide
  obtain ⟨db2, row2, heq, _, _, _, hch, _, hca, _⟩ :=
    c7_patch_changes_only_echo_xi_updatedAt dbAfterFirstIngest "alpha"
      ⟨"patched", true⟩ 5 exRow h
  exact ⟨h, db2, row2, heq, hch, hca⟩

/-- C3 amended: an ingest call is not one atomic unit of work. The
creation path commits twice: the first commit adds the record alone
and the second adds the single ingest provenance entry referencing it,
so the intermediate committed state holds a record without its entry
and a failure between the commits would retain it. When the sequence
completes, the final state extends the store by exactly the new record
and its ingest entry. -/
theorem c3_amended_creation_uses_two_commits (db : VaultDB)
    (m : MemoryCycleCreate) (ip : String) (nid : Option String) (now : Nat)
    (hFresh : ∀ c ∈ db.cycles,
      c.signifier ≠ m.signifier ∧ c.cycle_hash ≠ crudHash m) :
    ∃ row e,
      Crud.ingest_memory_cycle db m ip nid now =
        .ok ([⟨db.nextCycleId + 1, db.nextLogId, db.cycles ++ [row], db.logs⟩,
              ⟨db.nextCycleId + 1, db.nextLogId + 1, db.cycles ++ [row],
               db.logs ++ [e]⟩], row, true) ∧
      e.event = "ingest" ∧ e.memory_id = row.id ∧ e.cycle_hash = crudHash m ∧
      row = buildCycleRow db m (crudHash m) now := by
  have hHash : firstWhere (fun c => c.cycle_hash == crudHash m) db.cycles = none :=
    firstWhere_eq_none (fun c hc => beq_eq_false_iff_ne.mpr (hFresh c hc).2)
  have hSig : firstWhere (fun c => c.signifier == m.signifier) db.cycles = none :=
    firstWhere_eq_none (fun c hc => beq_eq_false_iff_ne.mpr (hFresh c hc).1)
  exact ⟨_, _, ingest_fresh_eq db m ip nid now hHash hSig, rfl, rfl, rfl, rfl⟩

/-- C3 witness: the amended behaviour at the example record ingested
into the empty store. -/
theorem c3_witness :
    (∀ c ∈ emptyDB.cycles,
      c.signifier ≠ exRecord.signifier ∧ c.cycle_hash ≠ crudHash exRecord) ∧
    (∃ row e,
      Crud.ingest_memory_cycle emptyDB exRecord "10.0.0.1" none 0 =
        .ok ([⟨2, 1, [row], []⟩, ⟨2, 2, [row], [e]⟩], row, true) ∧
      e.event = "ingest" ∧ e.memory_id = row.id ∧
      e.cycle_hash = crudHash exRecord ∧
      row = buildCycleRow emptyDB exRecord (crudHash exRecord) 0) := by
  have h : ∀ c ∈ emptyDB.cycles,
      c.signifier ≠ exRecord.signifier ∧ c.cycle_hash ≠ crudHash exRecord :=
    fun c hc => absurd hc (List.not_mem_nil c)
  exact ⟨h, c3_amended_creation_uses_two_commits emptyDB exRecord "10.0.0.1"
    none 0 h⟩

/-- C4: ingesting the same logical record twice, starting from a store
fresh for it, creates on the first call and dedups on the second: the
calls return true then false with the same record row, the second call
leaves the record table unchanged, and exactly two provenance entries
are appended, ingest then duplicate_ingest, both referencing the id of
the created record. -/
theorem c4_double_ingest (db : VaultDB) (m : MemoryCycleCreate)
    (ip1 ip2 : String) (nid1 nid2 : Option String) (t1 t2 : Nat)
    (hFresh : ∀ c ∈ db.cycles,
      c.signifier ≠ m.signifier ∧ c.cycle_hash ≠ crudHash m) :
    ∃ trace1 row s1 trace2 s2 e1 e2,
      Crud.ingest_memory_cycle db m ip1 nid1 t1 = .ok (trace1, row, true) ∧
      trace1.getLast? = some s1 ∧
      Crud.ingest_memory_cycle s1 m ip2 nid2 t2 = .ok (trace2, row, false) ∧
      trace2.getLast? = some s2 ∧
      s2.cycles = s1.cycles ∧ s1.cycles = db.cycles ++ [row] ∧
      s2.logs = db.logs ++ [e1, e2] ∧
      e1.event = "ingest" ∧ e2.event = "duplicate_ingest" ∧
      e1.memory_id = row.id ∧ e2.memory_id = row.id := by
  have hHash : firstWhere (fun c => c.cycle_hash == crudHash m) db.cycles = none :=
    firstWhere_eq_none (fun c hc => beq_eq_false_iff_ne.mpr (hFresh c hc).2)
  have hSig : firstWhere (fun c => c.signifier == m.signifier) db.cycles = none :=
    firstWhere_eq_none (fun c hc => beq_eq_false_iff_ne.mpr (hFresh c hc).1)
  have h1 := ingest_fresh_eq db m ip1 nid1 t1 hHash hSig
  have hFound1 : (firstWhere (fun c => c.cycle_hash == crudHash m)
      (db.cycles ++ [buildCycleRow db m (crudHash m) t1])).orElse
      (fun _ => firstWhere (fun c => c.signifier == m.signifier)
        (db.cycles ++ [buildCycleRow db m (crudHash m) t1])) =
      some (buildCycleRow db m (crudHash m) t1) := by
    rw [firstWhere_append _ (forall_of_firstWhere_eq_none hHash)]
    simp [firstWhere, buildCycleRow]
  have h2 := ingest_dup_eq
    ⟨db.nextCycleId + 1, db.nextLogId + 1,
     db.cycles ++ [buildCycleRow db m (crudHash m) t1],
     db.logs ++ [⟨db.nextLogId, db.nextCycleId, ip1, nid1, t1, crudHash m,
                  m.signifier, "ingest"⟩]⟩
    m ip2 nid2 t2 (buildCycleRow db m (crudHash m) t1) hFound1
  refine ⟨_, _, _, _, _,
    ⟨db.nextLogId, db.nextCycleId, ip1, nid1, t1, crudHash m, m.signifier,
     "ingest"⟩,
    ⟨db.nextLogId + 1, db.nextCycleId, ip2, nid2, t2, crudHash m, m.signifier,
     "duplicate_ingest"⟩,
    h1, rfl, h2, rfl, rfl, rfl, ?_, rfl, rfl, rfl, rfl⟩
  simp [buildCycleRow]

/-- C4 witness: the double ingest of the example record starting from
the empty store. -/
theorem c4_witness :
    (∀ c ∈ emptyDB.cycles,
      c.signifier ≠ exRecord.signifier ∧ c.cycle_hash ≠ crudHash exRecord) ∧
    (∃ trace1 row s1 trace2 s2 e1 e2,
      Crud.ingest_memory_cycle emptyDB exRecord "10.0.0.1" none 0 =
        .ok (trace1, row, true) ∧
      trace1.getLast? = some s1 ∧
      Crud.ingest_memory_cycle s1 exRecord "10.0.0.2" none 1 =
        .ok (trace2, row, false) ∧
      trace2.getLast? = some s2 ∧
      s2.cycles = s1.cycles ∧ s1.cycles = emptyDB.cycles ++ [row] ∧
      s2.logs = emptyDB.logs ++ [e1, e2] ∧
      e1.event = "ingest" ∧ e2.event = "duplicate_ingest" ∧
      e1.memory_id = row.id ∧ e2.memory_id = row.id) := by
  have h : ∀ c ∈ emptyDB.cycles,
      c.signifier ≠ exRecord.signifier ∧ c.cycle_hash ≠ crudHash exRecord :=
    fun c hc => absurd hc (List.not_mem_nil c)
  exact ⟨h, c4_double_ingest emptyDB exRecord "10.0.0.1" "10.0.0.2" none none
    0 1 h⟩

/-- C5: every sequential ingest call succeeds and appends exactly one
provenance entry while the record table gains at most one row, and
neither the patch operation nor direct creation mutates or deletes any
existing provenance entry. -/
theorem c5_one_provenance_entry_per_call (db : VaultDB)
    (m m2 : MemoryCycleCreate) (ip : String) (nid : Option String) (now : Nat)
    (sig2 : String) (patch : Crud.MemoryCyclePatch) :
    (∃ trace row b s e,
      Crud.ingest_memory_cycle db m ip nid now = .ok (trace, row, b) ∧
      trace.getLast? = some s ∧ s.logs = db.logs ++ [e] ∧
      (s.cycles = db.cycles ∨ s.cycles = db.cycles ++ [row])) ∧
    (Crud.update_memory_cycle db sig2 patch now).map (fun r => r.1.logs) =
      (Crud.update_memory_cycle db sig2 patch now).map (fun _ => db.logs) ∧
    (Crud.create_memory_cycle db m2 now).map (fun r => r.1.logs) =
      (Crud.create_memory_cycle db m2 now).map (fun _ => db.logs) := by
  refine ⟨?_, ?_, ?_⟩
  · cases hO : (firstWhere (fun c => c.cycle_hash == crudHash m) db.cycles).orElse
        (fun _ => firstWhere (fun c => c.signifier == m.signifier) db.cycles) with
    | some r =>
        exact ⟨_, _, _, _, _, ingest_dup_eq db m ip nid now r hO, rfl, rfl,
          Or.inl rfl⟩
    | none =>
        have hHash : firstWhere (fun c => c.cycle_hash == crudHash m)
            db.cycles = none := by
          cases hh : firstWhere (fun c => c.cycle_hash == crudHash m) db.cycles with
          | none => rfl
          | some r => rw [hh] at hO; simp only [Option.orElse] at hO; exact absurd hO (by simp)
        have hSig : firstWhere (fun c => c.signifier == m.signifier)
            db.cycles = none := by
          rw [hHash] at hO
          simpa only [Option.orElse] using hO
        exact ⟨_, _, _, _, _, ingest_fresh_eq db m ip nid now hHash hSig, rfl,
          rfl, Or.inr rfl⟩
  · cases hf : firstWhere (fun c => c.signifier == sig2) db.cycles with
    | none => simp [Crud.update_memory_cycle, hf]
    | some row => simp [Crud.update_memory_cycle, hf]
  · by_cases hAny : db.cycles.any (fun c => c.signifier == m2.signifier ||
        c.cycle_hash == Models.compute_cycle_hash (crudCanonicalData m2)) = true
    · simp [Crud.create_memory_cycle, insertCycle, hAny]
      rfl
    · simp only [Bool.not_eq_true] at hAny
      simp [Crud.create_memory_cycle, insertCycle, hAny]
      rfl

/-- C8: the archive export stream is one JSON line plus newline per
stored record, with exactly as many lines as records; the emitted rows
are a permutation of the table in ascending t order. -/
theorem c8_export_line_per_record (db : VaultDB) :
    Crud.export_memory_archive db =
      String.join ((Crud.exportLines db).map (fun line => line ++ "\n")) ∧
    Crud.exportLines db = (Crud.sortByT db.cycles).map Crud.cycleJsonLine ∧
    (Crud.exportLines db).length = db.cycles.length ∧
    (Crud.sortByT db.cycles).Perm db.cycles ∧
    (Crud.sortByT db.cycles).Pairwise (fun a b => a.t ≤ b.t) := by
  refine ⟨rfl, rfl, ?_, ?_, ?_⟩
  · simp [Crud.exportLines, Crud.sortByT]
  · exact List.mergeSort_perm db.cycles _
  · have h : (List.mergeSort db.cycles
        (fun a b => decide (a.t ≤ b.t))).Pairwise
        (fun a b => decide (a.t ≤ b.t)) :=
      List.sorted_mergeSort
        (fun a b c h1 h2 => by
          simp only [decide_eq_true_eq] at *
          omega)
        (fun a b => by
          simp only [Bool.or_eq_true, decide_eq_true_eq]
          omega)
        db.cycles
    exact h.imp (fun hab => by simpa using hab)

/-- C9 amended: the two ingest implementations share the dedup
algorithm but hash different serializations: the crud.py version
remaps the alias keys to psi_self, sigma_echo and xi, moved to the end
of the dict, before hashing, while the models.py version hashes the
alias-keyed dict; on the example record the resulting digests differ,
so dedup by hash diverges between the two. -/
theorem c9_amended_different_serializations (m : MemoryCycleCreate) :
    (crudCanonicalData m).map Prod.fst =
      ["t", "signifier", "glyphstream", "ache", "drift", "entropy",
       "psi_self", "sigma_echo", "xi"] ∧
    m.dictByAlias.map Prod.fst =
      ["t", "signifier", "ψ_self", "Σecho", "glyphstream", "ache", "drift",
       "entropy", "Ξ"] ∧
    crudHash exRecord ≠ Models.compute_cycle_hash exRecord.dictByAlias :=
  ⟨rfl, rfl, by decide⟩

/-- C10: the duplicate path logs the hash freshly computed from the
submitted payload together with the signifier copied from the found
record; on a signifier-only match the logged hash therefore differs
from the hash of the record the entry references, as the modified
example payload shows. -/
theorem c10_duplicate_logs_fresh_hash (db : VaultDB) (m : MemoryCycleCreate)
    (ip : String) (nid : Option String) (now : Nat) (r : MemoryCycleRow)
    (hFound :
      (firstWhere (fun c => c.cycle_hash == crudHash m) db.cycles).orElse
        (fun _ => firstWhere (fun c => c.signifier == m.signifier) db.cycles) =
        some r) :
    (∃ db1, Crud.ingest_memory_cycle db m ip nid now = .ok ([db1], r, false) ∧
      db1.logs = db.logs ++
        [⟨db.nextLogId, r.id, ip, nid, now, crudHash m, r.signifier,
          "duplicate_ingest"⟩]) ∧
    (Crud.ingest_memory_cycle dbAfterFirstIngest exRecord2
        "10.0.0.2" none 1).toOption.map
        (fun res => (res.2.1.cycle_hash,
          res.1.map (fun s => s.logs.map (fun e => e.cycle_hash)))) =
      some (crudHash exRecord, [[crudHash exRecord, crudHash exRecord2]]) ∧
    crudHash exRecord ≠ crudHash exRecord2 := by
  exact ⟨⟨_, ingest_dup_eq db m ip nid now r hFound, rfl⟩, by decide, by decide⟩

/-- C10 witness: the duplicate path at the modified example payload,
matched by signifier only. -/
theorem c10_witness :
    ((firstWhere (fun c => c.cycle_hash == crudHash exRecord2)
          dbAfterFirstIngest.cycles).orElse
        (fun _ => firstWhere (fun c => c.signifier == exRecord2.signifier)
          dbAfterFirstIngest.cycles) = some exRow) ∧
    (∃ db1, Crud.ingest_memory_cycle dbAfterFirstIngest exRecord2
        "10.0.0.2" none 1 = .ok ([db1], exRow, false) ∧
      db1.logs = dbAfterFirstIngest.logs ++
        [⟨dbAfterFirstIngest.nextLogId, exRow.id, "10.0.0.2", none, 1,
          crudHash exRecord2, exRow.signifier, "duplicate_ingest"⟩]) := by
  have h : (firstWhere (fun c => c.cycle_hash == crudHash exRecord2)
          dbAfterFirstIngest.cycles).orElse
        (fun _ => firstWhere (fun c => c.signifier == exRecord2.signifier)
          dbAfterFirstIngest.cycles) = some exRow := by decide
  exact ⟨h, (c10_duplicate_logs_fresh_hash dbAfterFirstIngest exRecord2
    "10.0.0.2" none 1 exRow h).1⟩

end ScrollVault
